import Mathlib

/-!
Verification development for the SpecForge generation pipeline
(`src/services/gemini.ts`) and its local persistence layer
(`src/services/db.ts`).

The pipeline `generateDesignPacket` is embedded as a pure function over a
`World` that records, for each external model-endpoint call the run makes,
whether the call throws and, if not, what response body it returns.  Response
bodies that the source feeds to `JSON.parse` are abstracted by `JsonText`:
either falsy/empty text (the source substitutes the literal string for the
empty object before parsing), text whose parse throws (or yields a non-object
value, which the source's subsequent field accesses turn into the same caught
error), or text that parses to an object with the given optional fields.

The TypeScript interfaces promise every field is present, but the source
casts `JSON.parse` output without validation, so every field a model response
may omit is embedded as an `Option`.
-/

deriving instance DecidableEq for Except

namespace SpecForge

/-! ## Data model (src/types.ts, fields made optional where parsing cannot
guarantee them) -/

/-- The `ProductSpec.constraints` record: every field nullable in the schema. -/
structure Constraints where
  environment : Option String := none
  sizeLimits : Option String := none
  weightLimits : Option String := none
  powerOrBattery : Option String := none
  safety : Option String := none
  budgetRange : Option String := none
deriving DecidableEq

/-- One entry of `ProductSpec.partsList`. -/
structure PartItem where
  name : String := ""
  description : String := ""
  estimatedDimensions : Option String := none
  materialOrTech : Option String := none
  quantity : Option Int := none
  roleInSystem : Option String := none
deriving DecidableEq

/-- One entry of `ProductSpec.diagramsPlan`.  A missing/undefined `title`
behaves exactly like the empty string in the source's falsy check, so it is
embedded as `""`. -/
structure DiagramRequest where
  diagramType : String := ""
  title : String := ""
  descriptionForImageModel : String := ""
deriving DecidableEq

/-- The parsed specification.  A `diagramsPlan` slot can hold JSON `null`
(the source guards `!plan`), hence `Option DiagramRequest` per slot. -/
structure ProductSpec where
  productName : Option String := none
  productType : Option String := none
  summary : Option String := none
  primaryUseCases : Option (List String) := none
  keyRequirements : Option (List String) := none
  constraints : Option Constraints := none
  partsList : Option (List PartItem) := none
  interactionsOrMechanisms : Option (List String) := none
  diagramsPlan : Option (List (Option DiagramRequest)) := none
  assemblyOrImplementationSteps : Option (List String) := none
  risksAndTradeoffs : Option (List String) := none
  validationChecks : Option (List String) := none
deriving DecidableEq

/-- A generated diagram image (src/types.ts `GeneratedImage`). -/
structure GeneratedImage where
  diagramType : String
  title : String
  url : String
  promptUsed : String
deriving DecidableEq

/-- The audit result as actually cast from JSON: both fields may be absent. -/
structure SelfCheckResult where
  issues : Option (List String) := none
  correctedSpec : Option ProductSpec := none
deriving DecidableEq

/-- The code artifact as actually cast from JSON (`GeneratedCode`). -/
structure GeneratedCode where
  language : Option String := none
  code : Option String := none
  explanation : Option String := none
deriving DecidableEq

/-- The packet returned by `generateDesignPacket` (`DesignResponse`). -/
structure DesignResponse where
  spec : ProductSpec
  images : List GeneratedImage
  selfCheck : SelfCheckResult
  implementationCode : Option GeneratedCode := none
  marketingPitchUrl : Option String := none
  videoUrl : Option String := none
deriving DecidableEq

/-- The progress statuses the pipeline emits to its callback, in source
order of the `setStatus` calls. -/
inductive GenStatus where
  | spec
  | images
  | code
  | video
  | audit
deriving DecidableEq

/-- The ways `generateDesignPacket` can reject. -/
inductive GenError where
  /-- the specification request itself threw -/
  | specRequestFailed
  /-- `JSON.parse` of the specification text threw
  (source: `Failed to generate valid spec`) -/
  | specParseFailed
  /-- the code promise rejected: either building the prompt threw
  (`spec.keyRequirements.join` on an absent field) or the request threw -/
  | codeStageFailed
  /-- the audit request threw (it is not inside any try/catch) -/
  | auditRequestFailed
deriving DecidableEq

/-! ## The external world -/

/-- A text response body, abstracted by what `JSON.parse` does to it.
`empty` is falsy text (`undefined` or `""`): the source replaces it by the
literal two-character empty-object string, whose parse yields an object with
every field absent.  `malformed` is text whose parse throws; for the
specification this also covers parses yielding non-objects, whose subsequent
field accesses throw inside the same try block. -/
inductive JsonText (α : Type) where
  | empty : JsonText α
  | malformed : JsonText α
  | value : α → JsonText α
deriving DecidableEq

/-- The `inlineData` of an image-response part. -/
structure InlineData where
  mimeType : String := ""
  data : String := ""
deriving DecidableEq

/-- One part of the first candidate's content. -/
structure InlinePart where
  inlineData : Option InlineData := none
deriving DecidableEq

/-- An image-model response: `candidates[0]?.content?.parts`, `none` when
there is no candidate, content or parts array. -/
structure ImageResponse where
  parts : Option (List InlinePart) := none
deriving DecidableEq

/-- A speech response, abstracted to
`candidates?.[0]?.content?.parts?.[0]?.inlineData?.data`. -/
structure PitchResponse where
  audioData : Option String := none
deriving DecidableEq

/-- A video long-running operation:
`done` plus `response?.generatedVideos?.[0]?.video?.uri`. -/
structure VideoOp where
  done : Bool := false
  uri : Option String := none
deriving DecidableEq

/-- One run's view of the external endpoints.  Each field is the outcome of
the corresponding awaited call: `Except.error` means the call threw.
Fan-out calls are indexed by their slot (diagram index, poll attempt). -/
structure World where
  specCall : Except Unit (JsonText ProductSpec)
  imageCall : Nat → Except Unit ImageResponse
  codeCall : Except Unit (JsonText GeneratedCode)
  pitchCall : Except Unit PitchResponse
  videoStart : Except Unit VideoOp
  videoPoll : Nat → Except Unit VideoOp
  auditCall : Except Unit (JsonText SelfCheckResult)
  apiKey : String

/-! ## Stage 1: specification parse and defaulting (gemini.ts lines 115-126) -/

/-- The defaulting performed right after `JSON.parse`: missing (falsy)
`constraints`, `diagramsPlan`, `partsList` become empty. -/
def defaultSpec (s : ProductSpec) : ProductSpec :=
  { s with
    constraints := some (s.constraints.getD {})
    diagramsPlan := some (s.diagramsPlan.getD [])
    partsList := some (s.partsList.getD []) }

/-- The composite of falsy-text substitution, `JSON.parse` and defaulting:
`none` when the parse (or a field access on a non-object parse) throws. -/
def parseSpecStage (t : JsonText ProductSpec) : Option ProductSpec :=
  match t with
  | .empty => some (defaultSpec {})
  | .malformed => none
  | .value s => some (defaultSpec s)

/-- The whole specification stage: request, then parse-and-default. -/
def specStageResult (w : World) : Option ProductSpec :=
  match w.specCall with
  | .error _ => none
  | .ok t => parseSpecStage t

/-! ## Stage 2: diagram fan-out (gemini.ts lines 132-170) -/

/-- The enriched image prompt built per diagram (line 136). -/
def imagePromptOf (p : DiagramRequest) : String :=
  "Technical engineering drawing, blueprint style, " ++ p.diagramType ++
  " view of " ++ p.title ++ ". " ++ p.descriptionForImageModel ++
  ". High contrast, white background, schematic labels, technical illustration."

/-- The data URL built from an inline image part (line 148). -/
def imageUrlOf (d : InlineData) : String :=
  "data:" ++ d.mimeType ++ ";base64," ++ d.data

/-- First part carrying `inlineData`, if any (lines 144-152). -/
def firstInline (r : ImageResponse) : Option InlineData :=
  (r.parts.getD []).findSome? (fun part => part.inlineData)

/-- One diagram slot's settled result: `none` for a null/empty-title slot
(skipped before any request), a thrown request, or a response without an
inline image; otherwise the `GeneratedImage` (lines 133-167). -/
def imageItem (call : Except Unit ImageResponse) (slot : Option DiagramRequest) :
    Option GeneratedImage :=
  match slot with
  | none => none
  | some p =>
    if p.title = "" then none
    else
      match call with
      | .error _ => none
      | .ok resp =>
        match firstInline resp with
        | none => none
        | some d =>
          some { diagramType := p.diagramType, title := p.title,
                 url := imageUrlOf d, promptUsed := imagePromptOf p }

/-- The per-slot results in input-slot order, as `Promise.all` returns them
(line 169): slot `i` of the plan is paired with call outcome `i`. -/
def slotResults (w : World) : Nat → List (Option DiagramRequest) →
    List (Option GeneratedImage)
  | _, [] => []
  | i, slot :: rest => imageItem (w.imageCall i) slot :: slotResults w (i + 1) rest

/-- The images collected from the fan-out: the settled results filtered to
the non-null ones, in slot order (line 170). -/
def imagesStage (w : World) : Nat → List (Option DiagramRequest) →
    List GeneratedImage
  | _, [] => []
  | i, slot :: rest =>
    match imageItem (w.imageCall i) slot with
    | none => imagesStage w (i + 1) rest
    | some img => img :: imagesStage w (i + 1) rest

/-! ## Stage 3: code and pitch fan-out (gemini.ts lines 176-212) -/

/-- The code promise (lines 176-191).  Building the prompt evaluates
`spec.keyRequirements.join`, which throws when the field is absent; the
request itself is not inside the try, so its exception also rejects the
promise.  Only the `JSON.parse` is caught (yielding no artifact); falsy
response text parses as the empty object, which is returned as-is. -/
def codeStage (w : World) (spec : ProductSpec) : Except GenError (Option GeneratedCode) :=
  match spec.keyRequirements with
  | none => .error .codeStageFailed
  | some _ =>
    match w.codeCall with
    | .error _ => .error .codeStageFailed
    | .ok t =>
      match t with
      | .empty => .ok (some {})
      | .malformed => .ok none
      | .value c => .ok (some c)

/-- The pitch promise (lines 193-210): the whole call and extraction are in
a try, so it never rejects; any failure or missing audio yields no URL. -/
def pitchStage (w : World) : Option String :=
  match w.pitchCall with
  | .error _ => none
  | .ok r => r.audioData.map (fun d => "data:audio/wav;base64," ++ d)

/-! ## Stage 4: video with bounded polling (gemini.ts lines 217-248) -/

/-- Maximum number of poll attempts (line 235: `attempts < 30`). -/
def videoPollBudget : Nat := 30

/-- Seconds slept before each poll (line 236). -/
def videoPollWaitSeconds : Nat := 10

/-- The poll loop `while (bang operation.done and attempts < 30)`, written
structurally on the remaining budget `fuel = videoPollBudget - attempts`,
which makes the guard `attempts < 30` the pattern `fuel = succ _`.  Returns
the final operation and the number of polls performed; a throwing poll
propagates (the surrounding try of the stage catches it). -/
def videoLoopAux (poll : Nat → Except Unit VideoOp) :
    Nat → Nat → VideoOp → Except Unit (VideoOp × Nat)
  | 0, attempts, op => .ok (op, attempts)
  | fuel + 1, attempts, op =>
    if op.done then .ok (op, attempts)
    else
      match poll attempts with
      | .error e => .error e
      | .ok op2 => videoLoopAux poll fuel (attempts + 1) op2

/-- The poll loop started at attempt 0 with the full budget. -/
def videoLoop (poll : Nat → Except Unit VideoOp) (op : VideoOp) :
    Except Unit (VideoOp × Nat) :=
  videoLoopAux poll videoPollBudget 0 op

/-- The whole video stage (lines 219-248): start, poll to completion or
budget exhaustion, then build the keyed download URL only when the operation
is done with a truthy URI; every exception is caught into no artifact. -/
def videoStage (w : World) : Option String :=
  match w.videoStart with
  | .error _ => none
  | .ok op0 =>
    match videoLoop w.videoPoll op0 with
    | .error _ => none
    | .ok (opF, _) =>
      match opF.uri with
      | none => none
      | some u =>
        if opF.done && u ≠ "" then some (u ++ "&key=" ++ w.apiKey) else none

/-! ## Stage 5: audit (gemini.ts lines 259-291) -/

/-- The audit stage: the request is not inside any try, so its exception
propagates; only the parse is caught, defaulting to no issues and the
pre-audit specification.  Falsy response text parses as the empty object. -/
def auditStage (w : World) (spec : ProductSpec) : Except GenError SelfCheckResult :=
  match w.auditCall with
  | .error _ => .error .auditRequestFailed
  | .ok t =>
    match t with
    | .empty => .ok {}
    | .malformed => .ok { issues := some [], correctedSpec := some spec }
    | .value r => .ok r

/-! ## The orchestrator (gemini.ts `generateDesignPacket`) -/

/-- The `contents` string of the specification request (line 107). -/
def specContents (productType description : String) : String :=
  "Product Type: " ++ productType ++ "\nDescription: " ++ description

/-- The full status sequence a completed run emits, in `setStatus` order
(lines 102, 130, 174, 216, 253). -/
def fullStatusSeq : List GenStatus :=
  [.spec, .images, .code, .video, .audit]

/-- The embedded `generateDesignPacket`: returns the statuses emitted to the
progress callback together with the settled outcome.  Statuses are emitted
before the corresponding stage runs, so a rejecting stage leaves exactly the
statuses emitted up to and including its own. -/
def generateDesignPacket (w : World) (description productType : String) :
    List GenStatus × Except GenError DesignResponse :=
  let _contents := specContents productType description
  match w.specCall with
  | .error _ => ([.spec], .error .specRequestFailed)
  | .ok t =>
    match parseSpecStage t with
    | none => ([.spec], .error .specParseFailed)
    | some spec =>
      let images := imagesStage w 0 (spec.diagramsPlan.getD [])
      match codeStage w spec with
      | .error e => ([.spec, .images, .code], .error e)
      | .ok generatedCode =>
        let marketingPitchUrl := pitchStage w
        let videoUrl := videoStage w
        match auditStage w spec with
        | .error e => (fullStatusSeq, .error e)
        | .ok selfCheck =>
          (fullStatusSeq,
           .ok { spec := spec, images := images, selfCheck := selfCheck,
                 implementationCode := generatedCode,
                 marketingPitchUrl := marketingPitchUrl,
                 videoUrl := videoUrl })

/-! ## Persistence layer (src/services/db.ts)

The IndexedDB object store of `SpecFactoryDB` is keyed on `id`
(`createObjectStore` with `keyPath: id`), so `store.put` overwrites the
record with the colliding key or inserts a new one.  The store's contents
are embedded as a list of records whose enumeration order is irrelevant to
the read path, which sorts before truncating.  Record ids are produced as
decimal string encodings of millisecond timestamps (`App.tsx`:
`Date.now().toString()`); the embedding carries their numeric value, which
is what the read path's comparator `Number(b.id) - Number(a.id)` compares. -/

/-- A saved design record (`RecentDesign` in App.tsx; the declaration is
absent from the checked-in `types.ts`, its fields are taken from the literal
built in `handleSaveRecent`). -/
structure RecentDesign where
  id : Nat
  date : String := ""
  productName : String := ""
  type : String := ""
  data : DesignResponse
deriving DecidableEq

/-- Models `put` on the keyed object store: overwrite the record with the same id,
else insert. -/
def saveRecentDesign (store : List RecentDesign) (design : RecentDesign) :
    List RecentDesign :=
  if store.any (fun r => r.id == design.id) then
    store.map (fun r => if r.id = design.id then design else r)
  else store ++ [design]

/-- The read path's comparator, `Number(b.id) - Number(a.id)`: descending
numeric id order. -/
def recentLE (a b : RecentDesign) : Prop := b.id ≤ a.id

instance : DecidableRel recentLE := fun a b => Nat.decLe b.id a.id

instance : IsTotal RecentDesign recentLE := ⟨fun a b => Nat.le_total b.id a.id⟩

instance : IsTrans RecentDesign recentLE := ⟨fun _ _ _ h1 h2 => Nat.le_trans h2 h1⟩

/-- Models `getRecentDesigns`: sort all records by numeric id descending, keep the
first 10.  Ids are unique in the keyed store, so the sorted order is unique
and any correct sort (here insertion sort) models `Array.prototype.sort`. -/
def getRecentDesigns (store : List RecentDesign) : List RecentDesign :=
  (List.insertionSort recentLE store).take 10

/-! ## Helper lemmas -/

@[simp]
lemma isOk_ok {ε α : Type} (a : α) : (Except.ok a : Except ε α).isOk = true := rfl

@[simp]
lemma isOk_error {ε α : Type} (e : ε) : (Except.error e : Except ε α).isOk = false := rfl

/-- A spec surviving the parse-and-default step has all three containers. -/
lemma parseSpecStage_containers {t : JsonText ProductSpec} {s : ProductSpec}
    (h : parseSpecStage t = some s) :
    s.constraints.isSome ∧ s.diagramsPlan.isSome ∧ s.partsList.isSome := by
  cases t <;> simp [parseSpecStage] at h <;> subst h <;> simp [defaultSpec]

/-- Inversion of a successful run: the packet's parts are exactly the
stages' results on the parsed specification. -/
lemma run_ok_inv {w : World} {d t : String} {p : DesignResponse}
    (h : (generateDesignPacket w d t).snd = .ok p) :
    specStageResult w = some p.spec ∧
    p.images = imagesStage w 0 (p.spec.diagramsPlan.getD []) ∧
    codeStage w p.spec = .ok p.implementationCode ∧
    p.marketingPitchUrl = pitchStage w ∧
    p.videoUrl = videoStage w ∧
    auditStage w p.spec = .ok p.selfCheck := by
  unfold generateDesignPacket at h
  simp only [specStageResult]
  cases hsc : w.specCall with
  | error e => simp [hsc] at h
  | ok txt =>
    simp only [hsc] at h
    cases hps : parseSpecStage txt with
    | none => simp [hps] at h
    | some s =>
      simp only [hps] at h
      cases hcs : codeStage w s with
      | error e => simp [hcs] at h
      | ok c =>
        simp only [hcs] at h
        cases hau : auditStage w s with
        | error e => simp [hau] at h
        | ok sc =>
          simp only [hau] at h
          simp only [Except.ok.injEq] at h
          subst h
          simp [hsc, hps, hcs, hau]

/-- The emitted status list is one of three prefixes of the full sequence,
determined by where the run rejects. -/
lemma run_fst_cases (w : World) (d t : String) :
    (generateDesignPacket w d t).fst = [.spec] ∨
    (generateDesignPacket w d t).fst = [.spec, .images, .code] ∨
    (generateDesignPacket w d t).fst = fullStatusSeq := by
  unfold generateDesignPacket
  cases hsc : w.specCall with
  | error e => simp
  | ok txt =>
    cases hps : parseSpecStage txt with
    | none => simp [hps]
    | some s =>
      cases hcs : codeStage w s with
      | error e => simp [hps, hcs]
      | ok c =>
        cases hau : auditStage w s with
        | error e => simp [hps, hcs, hau]
        | ok sc => simp [hps, hcs, hau]

/-- A successful run emits the full status sequence. -/
lemma run_ok_fst {w : World} {d t : String}
    (h : ((generateDesignPacket w d t).snd).isOk = true) :
    (generateDesignPacket w d t).fst = fullStatusSeq := by
  unfold generateDesignPacket at h ⊢
  cases hsc : w.specCall with
  | error e => simp [hsc] at h
  | ok txt =>
    simp only [hsc] at h ⊢
    cases hps : parseSpecStage txt with
    | none => simp [hps] at h
    | some s =>
      simp only [hps] at h ⊢
      cases hcs : codeStage w s with
      | error e => simp [hcs] at h
      | ok c =>
        simp only [hcs] at h ⊢
        cases hau : auditStage w s with
        | error e => simp [hau] at h
        | ok sc => simp [hau]

/-- When the parsed specification exists, the run rejects exactly when the
code promise rejects or the audit request throws. -/
lemma run_error_char (w : World) (d t : String) :
    ((generateDesignPacket w d t).snd).isOk = false ↔
      (specStageResult w = none ∨
       (∃ s, specStageResult w = some s ∧ (codeStage w s).isOk = false) ∨
       (∃ s, specStageResult w = some s ∧ (codeStage w s).isOk = true ∧
             (w.auditCall).isOk = false)) := by
  unfold generateDesignPacket specStageResult
  cases hsc : w.specCall with
  | error e => simp
  | ok txt =>
    cases hps : parseSpecStage txt with
    | none => simp [hps]
    | some s =>
      cases hcs : codeStage w s with
      | error e => simp [hps, hcs]
      | ok c =>
        cases hau : w.auditCall with
        | error e => simp [hps, hcs, hau, auditStage]
        | ok tau =>
          cases tau <;> simp [hps, hcs, hau, auditStage]

/-- Only `.codeStageFailed` can come out of the code stage. -/
lemma codeStage_error {w : World} {s : ProductSpec} {e : GenError}
    (h : codeStage w s = .error e) : e = .codeStageFailed := by
  unfold codeStage at h
  cases hk : s.keyRequirements with
  | none => simp [hk] at h; exact h.symm
  | some l =>
    simp only [hk] at h
    cases hc : w.codeCall with
    | error u => simp [hc] at h; exact h.symm
    | ok txt => cases txt <;> simp [hc] at h

/-- Only `.auditRequestFailed` can come out of the audit stage. -/
lemma auditStage_error {w : World} {s : ProductSpec} {e : GenError}
    (h : auditStage w s = .error e) : e = .auditRequestFailed := by
  unfold auditStage at h
  cases ha : w.auditCall with
  | error u => simp [ha] at h; exact h.symm
  | ok txt => cases txt <;> simp [ha] at h

/-- The specification surviving the whole first stage has its three
containers present. -/
lemma specStageResult_containers {w : World} {s : ProductSpec}
    (h : specStageResult w = some s) :
    s.constraints.isSome ∧ s.diagramsPlan.isSome ∧ s.partsList.isSome := by
  unfold specStageResult at h
  cases hsc : w.specCall with
  | error e => simp [hsc] at h
  | ok txt => rw [hsc] at h; exact parseSpecStage_containers h

/-! ## Concrete scenarios used by counterexamples and witnesses -/

/-- A run in which every stage behaves: the spec parses (with the field the
code prompt dereferences present), the code and audit responses are
unparseable (both caught), there are no diagrams, no audio, and the video
operation is already done without a URI. -/
def wOk : World where
  specCall := .ok (.value { keyRequirements := some [] })
  imageCall := fun _ => .error ()
  codeCall := .ok .malformed
  pitchCall := .ok {}
  videoStart := .ok { done := true }
  videoPoll := fun _ => .ok { done := true }
  auditCall := .ok .malformed
  apiKey := "k"

/-- Fixed description argument used by the concrete scenarios. -/
def descArg : String := "d"

/-- Fixed product-type argument used by the concrete scenarios. -/
def typeArg : String := "t"

/-- The packet of a run on fixed inputs, when the run returns one. -/
def packetOf (w : World) : Option DesignResponse :=
  match (generateDesignPacket w descArg typeArg).snd with
  | .ok p => some p
  | .error _ => none

/-- A default packet, only used to strip `Option` from `packetOf`. -/
def emptyPacket : DesignResponse :=
  { spec := {}, images := [], selfCheck := {} }

/-- The packet of a successful run on fixed inputs. -/
def okPacketOf (w : World) : DesignResponse := (packetOf w).getD emptyPacket

/-- Like `wOk` but with the code request throwing. -/
def w1 : World := { wOk with codeCall := .error () }

/-- Like `wOk` but with the audit request throwing. -/
def w3 : World := { wOk with auditCall := .error () }

/-- Like `wOk` but with an unparseable specification response. -/
def w6 : World := { wOk with specCall := .ok .malformed }

/-- Like `wOk` but with a falsy/empty specification response body. -/
def w9 : World := { wOk with specCall := .ok .empty }

/-! ## Claims -/

/-- C1 (counterexample): the specification stage succeeds, yet the run
throws, because the code-generation request (which is not inside any
try/catch) throws; so a later-stage failure can escape to the caller. -/
theorem code_request_rejection_escapes_cx :
    (specStageResult w1).isSome = true ∧
    (generateDesignPacket w1 descArg typeArg).snd = .error .codeStageFailed := by
  decide

/-- C1 (amended): `generateDesignPacket` rejects exactly when the
specification stage fails, or the code promise rejects (its request, or the
prompt construction dereferencing `keyRequirements`, is outside the
try/catch), or the audit request throws; failures of diagram items, pitch,
video, and the caught parse failures of code/audit only degrade the
packet. -/
theorem run_failure_characterization (w : World) (d t : String) :
    ((generateDesignPacket w d t).snd).isOk = false ↔
      (specStageResult w = none ∨
       (∃ s, specStageResult w = some s ∧ (codeStage w s).isOk = false) ∨
       (∃ s, specStageResult w = some s ∧ (codeStage w s).isOk = true ∧
             (w.auditCall).isOk = false)) :=
  run_error_char w d t

/-- C1 (witness): the characterization applied at the concrete world whose
code request throws. -/
theorem run_failure_characterization_witness :
    ((generateDesignPacket w1 descArg typeArg).snd).isOk = false :=
  (run_failure_characterization w1 descArg typeArg).mpr
    (Or.inr (Or.inl ⟨defaultSpec { keyRequirements := some [] },
      by decide, by decide⟩))

/-- C2: a returned packet's specification always carries `constraints`,
`diagramsPlan` and `partsList`; a parsed spec missing any of them has the
field defaulted to empty right after parsing, never treated as a
failure. -/
theorem spec_containers_present (w : World) (d t : String) (p : DesignResponse)
    (h : (generateDesignPacket w d t).snd = .ok p) :
    (p.spec.constraints.isSome ∧ p.spec.diagramsPlan.isSome ∧
     p.spec.partsList.isSome) ∧
    (∀ s : ProductSpec, parseSpecStage (.value s) = some (defaultSpec s)) ∧
    (∀ s : ProductSpec, s.constraints = none →
      (defaultSpec s).constraints = some {}) ∧
    (∀ s : ProductSpec, s.diagramsPlan = none →
      (defaultSpec s).diagramsPlan = some []) ∧
    (∀ s : ProductSpec, s.partsList = none →
      (defaultSpec s).partsList = some []) := by
  obtain ⟨hs, -⟩ := run_ok_inv h
  refine ⟨specStageResult_containers hs, fun s => rfl, ?_, ?_, ?_⟩ <;>
    intro s hnone <;> simp [defaultSpec, hnone]

/-- C2 (witness at a concrete successful run). -/
theorem spec_containers_present_witness :
    (okPacketOf wOk).spec.constraints.isSome ∧
    (okPacketOf wOk).spec.diagramsPlan.isSome ∧
    (okPacketOf wOk).spec.partsList.isSome :=
  (spec_containers_present wOk descArg typeArg (okPacketOf wOk) (by decide)).1

/-- C3 (counterexample): the audit request throws (it is outside any
try/catch), and the run aborts with an error instead of returning a packet
with the safe default self-check — worse than skipping audit entirely. -/
theorem audit_request_rejection_aborts_cx :
    (w3.auditCall).isOk = false ∧
    (generateDesignPacket w3 descArg typeArg).snd = .error .auditRequestFailed := by
  decide

/-- C3 (amended): when the audit *response fails to parse*, the packet's
self-check is the safe default — no issues and a corrected spec
content-equal to the pre-audit specification; but a throwing audit request
aborts the run. -/
theorem audit_parse_failure_safe_default (w : World) (d t : String)
    (p : DesignResponse) (ha : w.auditCall = .ok .malformed)
    (h : (generateDesignPacket w d t).snd = .ok p) :
    p.selfCheck.issues = some [] ∧ p.selfCheck.correctedSpec = some p.spec := by
  obtain ⟨-, -, -, -, -, hau⟩ := run_ok_inv h
  rw [auditStage, ha] at hau
  simp only [Except.ok.injEq] at hau
  exact ⟨by rw [← hau], by rw [← hau]⟩

/-- C3 (witness at a concrete run with an unparseable audit response). -/
theorem audit_parse_failure_safe_default_witness :
    (okPacketOf wOk).selfCheck.issues = some [] ∧
    (okPacketOf wOk).selfCheck.correctedSpec = some (okPacketOf wOk).spec :=
  audit_parse_failure_safe_default wOk descArg typeArg (okPacketOf wOk)
    (by decide) (by decide)

/-- C6: if the specification request throws or its response does not parse
into the expected shape, the run rejects with a single generation error —
one of the two specification-stage errors — and no packet is produced (the
status stream stops at the specification stage). -/
theorem spec_failure_aborts_run (w : World) (d t : String)
    (h : specStageResult w = none) :
    ∃ e, (generateDesignPacket w d t).snd = .error e ∧
      (e = .specRequestFailed ∨ e = .specParseFailed) ∧
      (generateDesignPacket w d t).fst = [.spec] := by
  unfold specStageResult at h
  unfold generateDesignPacket
  cases hsc : w.specCall with
  | error e => exact ⟨.specRequestFailed, by simp, Or.inl rfl, by simp⟩
  | ok txt =>
    rw [hsc] at h
    simp only [] at h
    exact ⟨.specParseFailed, by simp [h], Or.inr rfl, by simp [h]⟩

/-- C6 (witness at a concrete run with unparseable specification text). -/
theorem spec_failure_aborts_run_witness :
    ∃ e, (generateDesignPacket w6 descArg typeArg).snd = .error e ∧
      (e = .specRequestFailed ∨ e = .specParseFailed) ∧
      (generateDesignPacket w6 descArg typeArg).fst = [.spec] :=
  spec_failure_aborts_run w6 descArg typeArg (by decide)

/-- C7: the statuses emitted to the progress sink are always a non-empty
prefix of `spec, images, code, video, audit` (so they are strictly ordered,
none repeats, and the specification status comes first), and a run that
returns a packet emits the full sequence. -/
theorem statuses_ordered_monotonic (w : World) (d t : String) :
    (∃ n, 1 ≤ n ∧ (generateDesignPacket w d t).fst = fullStatusSeq.take n) ∧
    ((generateDesignPacket w d t).fst).head? = some .spec ∧
    (((generateDesignPacket w d t).snd).isOk = true →
      (generateDesignPacket w d t).fst = fullStatusSeq) ∧
    fullStatusSeq = [.spec, .images, .code, .video, .audit] ∧
    fullStatusSeq.Nodup := by
  refine ⟨?_, ?_, fun h => run_ok_fst h, rfl, by decide⟩
  · rcases run_fst_cases w d t with h | h | h
    · exact ⟨1, by omega, by rw [h]; rfl⟩
    · exact ⟨3, by omega, by rw [h]; rfl⟩
    · exact ⟨5, by omega, by rw [h]; rfl⟩
  · rcases run_fst_cases w d t with h | h | h <;> rw [h] <;> rfl

/-- C7 (witness): a concrete successful run emits the full sequence. -/
theorem statuses_ordered_monotonic_witness :
    (generateDesignPacket wOk descArg typeArg).fst = fullStatusSeq :=
  (statuses_ordered_monotonic wOk descArg typeArg).2.2.1 (by decide)

/-- C9: a falsy/empty specification response body is replaced by the empty
object text, parses, and yields exactly the defaulted specification: the
three containers present and empty, every other field absent; the run
proceeds past the specification stage (the status stream reaches `images`,
and any error it still hits is a later-stage error, never one of the two
specification errors). -/
theorem empty_spec_response_proceeds (w : World) (d t : String)
    (h : w.specCall = .ok .empty) :
    specStageResult w = some (defaultSpec {}) ∧
    (defaultSpec ({} : ProductSpec)).constraints = some {} ∧
    (defaultSpec ({} : ProductSpec)).diagramsPlan = some [] ∧
    (defaultSpec ({} : ProductSpec)).partsList = some [] ∧
    (defaultSpec ({} : ProductSpec)).productName = none ∧
    (defaultSpec ({} : ProductSpec)).productType = none ∧
    (defaultSpec ({} : ProductSpec)).summary = none ∧
    (defaultSpec ({} : ProductSpec)).primaryUseCases = none ∧
    (defaultSpec ({} : ProductSpec)).keyRequirements = none ∧
    (defaultSpec ({} : ProductSpec)).interactionsOrMechanisms = none ∧
    (defaultSpec ({} : ProductSpec)).assemblyOrImplementationSteps = none ∧
    (defaultSpec ({} : ProductSpec)).risksAndTradeoffs = none ∧
    (defaultSpec ({} : ProductSpec)).validationChecks = none ∧
    (∀ e, (generateDesignPacket w d t).snd = .error e →
      e = .codeStageFailed ∨ e = .auditRequestFailed) ∧
    ((generateDesignPacket w d t).fst).take 2 = [.spec, .images] := by
  refine ⟨by simp [specStageResult, h, parseSpecStage], rfl, rfl, rfl, rfl,
    rfl, rfl, rfl, rfl, rfl, rfl, rfl, rfl, ?_, ?_⟩
  · intro e he
    unfold generateDesignPacket at he
    simp only [h, parseSpecStage] at he
    cases hcs : codeStage w (defaultSpec {}) with
    | error e2 =>
      rw [hcs] at he
      simp only [Except.error.injEq] at he
      exact Or.inl (he ▸ codeStage_error hcs)
    | ok c =>
      rw [hcs] at he
      cases hau : auditStage w (defaultSpec {}) with
      | error e2 =>
        rw [hau] at he
        simp only [Except.error.injEq] at he
        exact Or.inr (he ▸ auditStage_error hau)
      | ok sc => rw [hau] at he; simp at he
  · unfold generateDesignPacket
    simp only [h, parseSpecStage]
    cases hcs : codeStage w (defaultSpec {}) with
    | error e2 => rfl
    | ok c =>
      cases hau : auditStage w (defaultSpec {}) with
      | error e2 => rfl
      | ok sc => rfl

/-- C9 (witness at a concrete run with empty specification text). -/
theorem empty_spec_response_proceeds_witness :
    specStageResult w9 = some (defaultSpec {}) ∧
    ((generateDesignPacket w9 descArg typeArg).fst).take 2 = [.spec, .images] := by
  have h := empty_spec_response_proceeds w9 descArg typeArg (by decide)
  exact ⟨h.1, h.2.2.2.2.2.2.2.2.2.2.2.2.2.2⟩

/-! ## C4: video polling bound -/

/-- The attempt counter a finishing poll loop reports never exceeds the
starting attempt count plus the remaining budget. -/
lemma videoLoopAux_attempts_le (poll : Nat → Except Unit VideoOp) :
    ∀ (fuel a : Nat) (op finOp : VideoOp) (n : Nat),
      videoLoopAux poll fuel a op = .ok (finOp, n) → n ≤ a + fuel := by
  intro fuel
  induction fuel with
  | zero =>
    intro a op finOp n h
    simp only [videoLoopAux, Except.ok.injEq, Prod.mk.injEq] at h
    omega
  | succ f ih =>
    intro a op finOp n h
    unfold videoLoopAux at h
    by_cases hd : op.done
    · simp only [hd, if_true, Except.ok.injEq, Prod.mk.injEq] at h
      omega
    · simp only [hd, if_false] at h
      cases hp : poll a with
      | error e => rw [hp] at h; simp at h
      | ok op2 =>
        rw [hp] at h
        have := ih (a + 1) op2 finOp n h
        omega

/-- C4: the poll loop performs at most `videoPollBudget` polls, each behind
a fixed `videoPollWaitSeconds` delay (a 300-second ceiling); whenever the
video stage yields no artifact (exhaustion, a missing URI, or any thrown
start/poll call), a returned packet simply has no `videoUrl`; and the video
stage never decides whether the run succeeds — replacing the video
endpoints by any others leaves success/failure unchanged. -/
theorem video_stage_bounded_and_nonfatal (w : World) (d t : String) :
    (∀ op finOp n, videoLoop w.videoPoll op = .ok (finOp, n) →
       n ≤ videoPollBudget ∧ videoPollWaitSeconds * n ≤ 300) ∧
    (videoStage w = none → ∀ p, (generateDesignPacket w d t).snd = .ok p →
       p.videoUrl = none) ∧
    (∀ vs vp,
       ((generateDesignPacket { w with videoStart := vs, videoPoll := vp } d t).snd).isOk =
       ((generateDesignPacket w d t).snd).isOk) := by
  refine ⟨?_, ?_, ?_⟩
  · intro op finOp n h
    unfold videoLoop at h
    have := videoLoopAux_attempts_le w.videoPoll videoPollBudget 0 op finOp n h
    simp only [videoPollBudget] at this
    simp only [videoPollBudget, videoPollWaitSeconds]
    omega
  · intro hv p hp
    obtain ⟨-, -, -, -, hvu, -⟩ := run_ok_inv hp
    rw [hvu, hv]
  · intro vs vp
    have hiff := (run_error_char { w with videoStart := vs, videoPoll := vp } d t).trans
      ((run_error_char w d t).symm)
    cases hA : ((generateDesignPacket { w with videoStart := vs, videoPoll := vp } d t).snd).isOk <;>
      cases hB : ((generateDesignPacket w d t).snd).isOk <;> simp_all

/-- Like `wOk` but with a video operation that never completes: the loop exhausts
its 30-attempt budget. -/
def w4 : World := { wOk with videoStart := .ok {}, videoPoll := fun _ => .ok {} }

/-- C4 (witness): a never-completing operation is polled exactly 30 times,
within the 300-second ceiling, and the packet of that run has no video. -/
theorem video_stage_bounded_and_nonfatal_witness :
    (30 ≤ videoPollBudget ∧ videoPollWaitSeconds * 30 ≤ 300) ∧
    (okPacketOf w4).videoUrl = none := by
  have h := video_stage_bounded_and_nonfatal w4 descArg typeArg
  exact ⟨h.1 {} {} 30 (by decide), h.2.1 (by decide) (okPacketOf w4) (by decide)⟩

/-! ## C5 and C10: the diagram fan-out -/

/-- Number of plan slots holding an entry with a non-empty title. -/
def nonEmptyTitleCount (plan : List (Option DiagramRequest)) : Nat :=
  plan.countP (fun slot =>
    match slot with
    | some q => q.title != ""
    | none => false)

/-- The plan the claim measures against: the corrected one when the audit
produced a corrected spec, the original otherwise. -/
def correctedOrOriginalPlan (p : DesignResponse) : List (Option DiagramRequest) :=
  match p.selfCheck.correctedSpec with
  | some cs => cs.diagramsPlan.getD []
  | none => p.spec.diagramsPlan.getD []

/-- A produced image comes from a slot holding an entry with a non-empty
title. -/
lemma imageItem_some {call : Except Unit ImageResponse}
    {slot : Option DiagramRequest} {img : GeneratedImage}
    (h : imageItem call slot = some img) :
    ∃ q, slot = some q ∧ q.title ≠ "" := by
  cases slot with
  | none => simp [imageItem] at h
  | some q =>
    by_cases ht : q.title = ""
    · simp [imageItem, ht] at h
    · exact ⟨q, rfl, ht⟩

/-- The fan-out never yields more images than there are non-empty-title
slots. -/
lemma imagesStage_length_le (w : World) :
    ∀ (plan : List (Option DiagramRequest)) (i : Nat),
      (imagesStage w i plan).length ≤ nonEmptyTitleCount plan := by
  intro plan
  induction plan with
  | nil => intro i; simp [imagesStage, nonEmptyTitleCount]
  | cons slot rest ih =>
    intro i
    unfold imagesStage nonEmptyTitleCount
    unfold nonEmptyTitleCount at ih
    cases him : imageItem (w.imageCall i) slot with
    | none =>
      have := ih (i + 1)
      simp only [List.countP_cons]
      split <;> omega
    | some img =>
      obtain ⟨q, rfl, hq⟩ := imageItem_some him
      have hle := ih (i + 1)
      have hqb : (q.title != "") = true := by simpa using hq
      simp [List.countP_cons, hqb]
      omega

/-- The collected images are the per-slot settled results with the nulls
dropped, in slot order. -/
lemma imagesStage_eq_reduceOption (w : World) :
    ∀ (plan : List (Option DiagramRequest)) (i : Nat),
      imagesStage w i plan = (slotResults w i plan).reduceOption := by
  intro plan
  induction plan with
  | nil => intro i; rfl
  | cons slot rest ih =>
    intro i
    unfold imagesStage slotResults
    cases him : imageItem (w.imageCall i) slot with
    | none => simp [List.reduceOption_cons_of_none, ih (i + 1)]
    | some img => simp [List.reduceOption_cons_of_some, ih (i + 1)]

/-- The collected images, in order, are a subsequence of the per-slot
results in plan order. -/
lemma imagesStage_sublist (w : World) :
    ∀ (plan : List (Option DiagramRequest)) (i : Nat),
      ((imagesStage w i plan).map some).Sublist (slotResults w i plan) := by
  intro plan
  induction plan with
  | nil => intro i; simp [imagesStage, slotResults]
  | cons slot rest ih =>
    intro i
    unfold imagesStage slotResults
    cases him : imageItem (w.imageCall i) slot with
    | none => exact (ih (i + 1)).cons _
    | some img =>
      simp only [List.map_cons]
      exact (ih (i + 1)).cons₂ _

/-- A one-entry diagram plan with a non-empty title. -/
def diagA : DiagramRequest :=
  { diagramType := "top", title := "A", descriptionForImageModel := "x" }

/-- A parsed spec carrying `diagA` as its only planned diagram. -/
def spec5 : ProductSpec :=
  { keyRequirements := some [], diagramsPlan := some [some diagA] }

/-- An image response holding one inline image part. -/
def imgResp : ImageResponse :=
  { parts := some [{ inlineData := some { mimeType := "image/png", data := "Zz" } }] }

/-- An audit result whose corrected spec has an empty diagram plan. -/
def audit5 : SelfCheckResult :=
  { issues := some [], correctedSpec := some { diagramsPlan := some [] } }

/-- Like `wOk` but with a one-diagram plan whose image succeeds, and an audit whose
corrected spec has an empty diagram plan. -/
def w5 : World :=
  { wOk with
    specCall := .ok (.value spec5)
    imageCall := fun _ => .ok imgResp
    auditCall := .ok (.value audit5) }

/-- C5 (counterexample): a run returns one image while the (corrected) plan
has zero non-empty-title entries — the images are produced from the
pre-audit plan, so the bound against the corrected plan fails. -/
theorem images_exceed_corrected_plan_cx :
    ((packetOf w5).map (fun p => p.images.length)) = some 1 ∧
    ((packetOf w5).map
       (fun p => nonEmptyTitleCount (correctedOrOriginalPlan p))) = some 0 ∧
    ((packetOf w5).map (fun p =>
       decide (p.images.length ≤ nonEmptyTitleCount (correctedOrOriginalPlan p))))
      = some false := by
  decide

/-- C5 (amended): the image count is bounded by the number of
non-empty-title entries of the *original* (post-defaulting, pre-audit) plan
the packet carries; null or empty-title slots are skipped before any
request, and a failed request yields no image. -/
theorem images_le_plan_nonempty_titles (w : World) (d t : String)
    (p : DesignResponse) (h : (generateDesignPacket w d t).snd = .ok p) :
    p.images.length ≤ nonEmptyTitleCount (p.spec.diagramsPlan.getD []) ∧
    (∀ i, imageItem (w.imageCall i) none = none) ∧
    (∀ i q, q.title = "" → imageItem (w.imageCall i) (some q) = none) ∧
    (∀ slot, imageItem (.error ()) slot = none) := by
  obtain ⟨-, him, -⟩ := run_ok_inv h
  refine ⟨?_, fun i => rfl, fun i q hq => by simp [imageItem, hq], ?_⟩
  · rw [him]; exact imagesStage_length_le w _ 0
  · intro slot
    cases slot with
    | none => rfl
    | some q => by_cases hq : q.title = "" <;> simp [imageItem, hq]

/-- C5 (witness at a concrete run producing one image from a one-entry
plan). -/
theorem images_le_plan_nonempty_titles_witness :
    (okPacketOf w5).images.length ≤
      nonEmptyTitleCount ((okPacketOf w5).spec.diagramsPlan.getD []) :=
  (images_le_plan_nonempty_titles w5 descArg typeArg (okPacketOf w5) (by decide)).1

/-- C10: the packet's images are exactly the per-slot settled results of
the plan with the failures dropped — `Promise.all` keeps input-slot order —
so the surviving images appear in plan order (their list is a subsequence
of the slot results). -/
theorem images_preserve_plan_order (w : World) (d t : String)
    (p : DesignResponse) (h : (generateDesignPacket w d t).snd = .ok p) :
    p.images = (slotResults w 0 (p.spec.diagramsPlan.getD [])).reduceOption ∧
    (p.images.map some).Sublist (slotResults w 0 (p.spec.diagramsPlan.getD [])) := by
  obtain ⟨-, him, -⟩ := run_ok_inv h
  rw [him]
  exact ⟨imagesStage_eq_reduceOption w _ 0, imagesStage_sublist w _ 0⟩

/-- A diagram entry with a non-empty title, used in the second slot. -/
def diagB : DiagramRequest :=
  { diagramType := "side", title := "B", descriptionForImageModel := "y" }

/-- A two-slot plan: the first slot's entry has an empty title. -/
def spec10 : ProductSpec :=
  { keyRequirements := some [],
    diagramsPlan := some [some { title := "" }, some diagB] }

/-- Like `wOk` but with `spec10`: the first slot is skipped, the second succeeds. -/
def w10 : World :=
  { wOk with
    specCall := .ok (.value spec10)
    imageCall := fun _ => .ok imgResp }

/-- C10 (witness at a concrete two-slot run). -/
theorem images_preserve_plan_order_witness :
    (okPacketOf w10).images =
      (slotResults w10 0 ((okPacketOf w10).spec.diagramsPlan.getD [])).reduceOption ∧
    ((okPacketOf w10).images.map some).Sublist
      (slotResults w10 0 ((okPacketOf w10).spec.diagramsPlan.getD [])) :=
  images_preserve_plan_order w10 descArg typeArg (okPacketOf w10) (by decide)

/-! ## C8: persistence layer -/

/-- C8: `put` on the keyed store overwrites on id collision — the store
keeps its size, its id multiset is untouched, the new record is present and
every record with a different id survives; and the read path returns at
most 10 records, sorted by numeric id descending, with no duplicate ids
when the store (keyed by id) has none. -/
theorem persistence_upsert_and_recent :
    (∀ (store : List RecentDesign) (d : RecentDesign),
       (∃ r, r ∈ store ∧ r.id = d.id) →
         (saveRecentDesign store d).length = store.length ∧
         d ∈ saveRecentDesign store d ∧
         (saveRecentDesign store d).map RecentDesign.id = store.map RecentDesign.id ∧
         (∀ r, r ∈ store → r.id ≠ d.id → r ∈ saveRecentDesign store d)) ∧
    (∀ store : List RecentDesign,
       (getRecentDesigns store).length ≤ 10 ∧
       (getRecentDesigns store).Sorted recentLE ∧
       ((store.map RecentDesign.id).Nodup →
         ((getRecentDesigns store).map RecentDesign.id).Nodup)) := by
  constructor
  · intro store d hd
    obtain ⟨r, hr, hid⟩ := hd
    have hany : store.any (fun x => x.id == d.id) = true :=
      List.any_eq_true.mpr ⟨r, hr, by simpa using hid⟩
    refine ⟨?_, ?_, ?_, ?_⟩
    · simp [saveRecentDesign, hany]
    · simp only [saveRecentDesign, hany, if_true]
      exact List.mem_map.mpr ⟨r, hr, by simp [hid]⟩
    · simp only [saveRecentDesign, hany, if_true]
      rw [List.map_map]
      apply List.map_congr_left
      intro x _
      by_cases hx : x.id = d.id
      · simp [hx]
      · simp [hx]
    · intro r2 hr2 hne
      simp only [saveRecentDesign, hany, if_true]
      exact List.mem_map.mpr ⟨r2, hr2, if_neg hne⟩
  · intro store
    refine ⟨?_, ?_, ?_⟩
    · simp only [getRecentDesigns]
      exact List.length_take_le 10 _
    · exact List.Pairwise.sublist (List.take_sublist 10 _)
        (List.sorted_insertionSort recentLE store)
    · intro hn
      have hperm := (List.perm_insertionSort recentLE store).map RecentDesign.id
      have h2 : ((List.insertionSort recentLE store).map RecentDesign.id).Nodup :=
        hperm.nodup_iff.mpr hn
      have h3 := (List.take_sublist 10 (List.insertionSort recentLE store)).map
        RecentDesign.id
      exact List.Nodup.sublist h3 h2

/-- A two-record store with distinct ids. -/
def storeA : List RecentDesign :=
  [{ id := 5, data := emptyPacket }, { id := 3, data := emptyPacket }]

/-- A record colliding with the second id of `storeA`. -/
def dNew : RecentDesign := { id := 3, productName := "b", data := emptyPacket }

/-- C8 (witness at a concrete store and colliding record). -/
theorem persistence_upsert_and_recent_witness :
    (saveRecentDesign storeA dNew).length = storeA.length ∧
    dNew ∈ saveRecentDesign storeA dNew ∧
    (getRecentDesigns storeA).length ≤ 10 ∧
    ((getRecentDesigns storeA).map RecentDesign.id).Nodup := by
  have h := persistence_upsert_and_recent
  have h1 := h.1 storeA dNew ⟨{ id := 3, data := emptyPacket }, by decide, rfl⟩
  exact ⟨h1.1, h1.2.1, (h.2 storeA).1, (h.2 storeA).2.2 (by decide)⟩

end SpecForge
